import Mathlib

/-!
Verification development for the peg-reconciliation engine of
stable-channels-lsp (src/stable.rs).

Shallow embedding conventions:
* u64 quantities (sats, msats) are modelled as Nat, with explicit
  reduction mod 2 ^ 64 where the Rust u64 arithmetic can wrap;
* f64 quantities (USD amounts, the BTC/USD exchange rate) are modelled
  as Rat (exact arithmetic; float rounding is not modelled);
* ChannelId ([u8; 32]) and PublicKey are modelled as Nat identifiers,
  with 0 standing for ChannelId.from_bytes([0; 32]);
* the external price feed (crate price_feeds, absent from the sources)
  and the runtime send primitive are passed in as explicit parameters
  of type Except Unit Rat / Except Unit Nat.
-/

namespace StableChannels

/-- Size of the u64 value space; Rust u64 arithmetic wraps mod this. -/
def U64SIZE : Nat := 2 ^ 64

/-- Modelled from the spec: the crate module types is not under src/.
NativeAmount (struct Bitcoin) is a non-negative integer count of
satoshis; Bitcoin.from_sats wraps a raw sat count. -/
def Bitcoin.from_sats (n : Nat) : Nat := n

/-- Modelled from the spec: the crate module types is not under src/.
FiatAmount (struct USD) is produced only by NativeAmount times
ExchangeRate, where the rate is fiat per one native unit (1 BTC =
100000000 sats); USD.from_bitcoin converts a sat balance to USD. -/
def USD.from_bitcoin (sats : Nat) (rate : Rat) : Rat :=
  (sats : Rat) * rate / 100000000

/-- Modelled from the spec: the crate module types is not under src/.
USD.from_f64 injects a raw fiat number. -/
def USD.from_f64 (q : Rat) : Rat := q

/-- Modelled from the spec: the crate module types is not under src/.
to_native_subunit(fiat, rate) rounds toward zero and never produces a
negative amount; for the non-negative inputs it is applied to, round
toward zero is the floor, and Int.toNat clamps any negative result. -/
def USD.to_native_subunit (f : Rat) (rate : Rat) : Nat :=
  (⌊f / rate * 100000000⌋).toNat

/-- Modelled from the spec: the crate module types is not under src/.
USD.to_msats converts the absolute fiat deviation to the payment
sub-subunit: to_native_subunit of the absolute value, then an exact
multiplication by 1000 (sats to msats). -/
def USD.to_msats (d : Rat) (rate : Rat) : Nat :=
  USD.to_native_subunit |d| rate * 1000

/-- Read-only snapshot of one live channel, as returned by the runtime
list_channels (ldk_node ChannelDetails fields used by stable.rs). -/
structure ChannelDetails where
  channel_id : Nat
  counterparty_node_id : Nat
  channel_value_sats : Nat
  outbound_capacity_msat : Nat
  unspendable_punishment_reserve : Option Nat
  is_channel_ready : Bool
deriving DecidableEq

/-- The pegged-channel record (struct StableChannel of the crate
types module; field list as constructed in src/user.rs). -/
structure StableChannel where
  channel_id : Nat
  counterparty : Nat
  is_stable_receiver : Bool
  expected_usd : Rat
  expected_btc : Nat
  stable_receiver_btc : Nat
  stable_receiver_usd : Rat
  stable_provider_btc : Nat
  stable_provider_usd : Rat
  latest_price : Rat
  risk_level : Nat
  payment_made : Bool
  timestamp : Nat
  formatted_datetime : String
  sc_dir : String
  prices : String
deriving DecidableEq

/-- src/stable.rs get_latest_price: returns the price feed result, or
the constant 84000.0 when the feed fails. -/
def get_latest_price (feed : Except Unit Rat) : Rat :=
  match feed with
  | .ok price => price
  | .error _ => 84000

/-- src/stable.rs channel_exists: whether any listed channel has the
given id. -/
def channel_exists (channels : List ChannelDetails) (channel_id : Nat) : Bool :=
  channels.any (fun c => c.channel_id == channel_id)

/-- The raw our-side sat balance of update_balances before u64
reduction: outbound_capacity_msat / 1000 plus the unspendable
punishment reserve (0 when absent). -/
def rawOurSats (ch : ChannelDetails) : Nat :=
  ch.outbound_capacity_msat / 1000 + (ch.unspendable_punishment_reserve.getD 0)

/-- our_balance_sats of update_balances as a u64 value. -/
def ourBalanceSats (ch : ChannelDetails) : Nat :=
  rawOurSats ch % U64SIZE

/-- their_balance_sats of update_balances: channel_value_sats minus
our_balance_sats in wrapping u64 arithmetic. -/
def theirBalanceSats (ch : ChannelDetails) : Nat :=
  (ch.channel_value_sats % U64SIZE + U64SIZE - ourBalanceSats ch) % U64SIZE

/-- The balance-assignment block of update_balances (duplicated
verbatim in both branches of the Rust source): overwrite the four
balance fields from the channel snapshot according to the role. -/
def applyChannelBalances (ch : ChannelDetails) (sc : StableChannel) : StableChannel :=
  let our_balance := Bitcoin.from_sats (ourBalanceSats ch)
  let their_balance := Bitcoin.from_sats (theirBalanceSats ch)
  if sc.is_stable_receiver then
    { sc with
      stable_receiver_btc := our_balance
      stable_receiver_usd := USD.from_bitcoin our_balance sc.latest_price
      stable_provider_btc := their_balance
      stable_provider_usd := USD.from_bitcoin their_balance sc.latest_price }
  else
    { sc with
      stable_provider_btc := our_balance
      stable_provider_usd := USD.from_bitcoin our_balance sc.latest_price
      stable_receiver_btc := their_balance
      stable_receiver_usd := USD.from_bitcoin their_balance sc.latest_price }

/-- src/stable.rs update_balances: fetch a price when latest_price is
0, bind the default (all-zero) channel id to the first listed channel,
otherwise locate the channel matching the stored id, and recompute
both sides of the record from the snapshot.  Returns the
matching_channel_found flag and the (possibly) updated record. -/
def update_balances (feed : Except Unit Rat) (channels : List ChannelDetails)
    (sc0 : StableChannel) : Bool × StableChannel :=
  let sc := if sc0.latest_price = 0 then
    { sc0 with latest_price := get_latest_price feed } else sc0
  if sc.channel_id = 0 then
    match channels.head? with
    | some channel =>
        (true, applyChannelBalances channel { sc with channel_id := channel.channel_id })
    | none => (false, sc)
  else
    match channels.find? (fun c => c.channel_id == sc.channel_id) with
    | some channel => (true, applyChannelBalances channel sc)
    | none => (false, sc)

/-- The local action enum of check_stability. -/
inductive Action
  | Wait
  | Pay
  | DoNothing
  | HighRisk
deriving DecidableEq

/-- Observable outcome of one check_stability pass: the record after
the pass, the chosen action, and the msat amount handed to the runtime
spontaneous-payment send when one was issued (none when send was not
invoked). -/
structure PassResult where
  record : StableChannel
  action : Action
  sentAmount : Option Nat
deriving DecidableEq

/-- check_stability lines 167-172: run update_balances and keep the
updated record only when it reports success, otherwise keep the stale
input record. -/
def reconcileRecord (feed : Except Unit Rat) (channels : List ChannelDetails)
    (sc0 : StableChannel) : StableChannel :=
  let r := update_balances feed channels sc0
  if r.1 then r.2 else sc0

/-- check_stability line 176: the absolute percent deviation of the
receiver side from par. -/
def percentFromPar (sc : StableChannel) : Rat :=
  |(sc.stable_receiver_usd - sc.expected_usd) / sc.expected_usd * 100|

/-- check_stability lines 192-204: the decision (dead-band first, then
the risk gate, then the directional rule on role and side of par). -/
def stabilityAction (sc : StableChannel) : Action :=
  if percentFromPar sc < 1 / 10 then .DoNothing
  else
    let is_receiver_below_expected : Bool := sc.stable_receiver_usd < sc.expected_usd
    if 100 < sc.risk_level then .HighRisk
    else
      match sc.is_stable_receiver, is_receiver_below_expected with
      | true, true => .Wait
      | true, false => .Pay
      | false, true => .Pay
      | false, false => .Wait

/-- check_stability line 220: the msat amount handed to the runtime
send on a Pay decision, converted from dollars_from_par at the
record's latest price. -/
def payAmountMsats (sc : StableChannel) : Nat :=
  USD.to_msats (sc.stable_receiver_usd - sc.expected_usd) sc.latest_price

/-- src/stable.rs check_stability: run update_balances, keep the
update only on success, compute the deviation from par on the
resulting record, pick the action, and on Pay send the converted
deviation directly through the runtime spontaneous-payment primitive,
marking payment_made on send success. -/
def check_stability (feed : Except Unit Rat) (channels : List ChannelDetails)
    (sendResult : Except Unit Nat) (sc0 : StableChannel) : PassResult :=
  let sc := reconcileRecord feed channels sc0
  match stabilityAction sc with
  | .Pay =>
      let amt := payAmountMsats sc
      match sendResult with
      | .ok _ => { record := { sc with payment_made := true }, action := .Pay, sentAmount := some amt }
      | .error _ => { record := sc, action := .Pay, sentAmount := some amt }
  | a => { record := sc, action := a, sentAmount := none }

/-- The failure modes of execute_payment (each a distinct error string
in the Rust source). -/
inductive PayError
  | zeroAmount
  | channelNotFound
  | channelNotReady
  | insufficientCapacity (available needed : Nat)
  | counterpartyMismatch
  | sendFailed
deriving DecidableEq

/-- Observable outcome of execute_payment: the returned result, whether
the runtime send primitive was invoked, and the record afterwards.
The Rust function borrows the record immutably, so the record field is
always the input record unchanged. -/
structure ExecResult where
  result : Except PayError Nat
  sendCalled : Bool
  record : StableChannel

/-- src/stable.rs execute_payment: reject a zero amount before
anything else, locate the channel for the record id, require it ready,
require outbound capacity at least the amount (error carries both
values), require the snapshot counterparty to equal the record
counterparty, then invoke the runtime send. -/
def execute_payment (channels : List ChannelDetails) (amount_msats : Nat)
    (sc : StableChannel) (sendResult : Except Unit Nat) : ExecResult :=
  if amount_msats = 0 then ⟨.error .zeroAmount, false, sc⟩
  else
    match channels.find? (fun c => c.channel_id == sc.channel_id) with
    | none => ⟨.error .channelNotFound, false, sc⟩
    | some channel =>
      if channel.is_channel_ready = false then ⟨.error .channelNotReady, false, sc⟩
      else if channel.outbound_capacity_msat < amount_msats then
        ⟨.error (.insufficientCapacity channel.outbound_capacity_msat amount_msats), false, sc⟩
      else if channel.counterparty_node_id ≠ sc.counterparty then
        ⟨.error .counterpartyMismatch, false, sc⟩
      else
        match sendResult with
        | .ok payment_id => ⟨.ok payment_id, true, sc⟩
        | .error _ => ⟨.error .sendFailed, true, sc⟩

/-! ### Helper notions and lemmas -/

/-- Well-formedness of a runtime channel snapshot: the u64 fields do
not wrap (the raw our-side never exceeds the capacity, which fits in
u64), matching the invariants of the external runtime. -/
def ChannelWF (ch : ChannelDetails) : Prop :=
  rawOurSats ch ≤ ch.channel_value_sats ∧ ch.channel_value_sats < U64SIZE

theorem sides_sum (ch : ChannelDetails) (h : ChannelWF ch) :
    ourBalanceSats ch + theirBalanceSats ch = ch.channel_value_sats := by
  obtain ⟨h1, h2⟩ := h
  have hU : U64SIZE = 18446744073709551616 := by norm_num [U64SIZE]
  have hour : ourBalanceSats ch = rawOurSats ch :=
    Nat.mod_eq_of_lt (lt_of_le_of_lt h1 h2)
  have hcap : ch.channel_value_sats % U64SIZE = ch.channel_value_sats :=
    Nat.mod_eq_of_lt h2
  unfold theirBalanceSats
  rw [hour, hcap]
  have e1 : ch.channel_value_sats + U64SIZE - rawOurSats ch
      = (ch.channel_value_sats - rawOurSats ch) + U64SIZE := by omega
  rw [e1, Nat.add_mod_right, Nat.mod_eq_of_lt (by omega)]
  omega

theorem applyChannelBalances_sum (ch : ChannelDetails) (sc : StableChannel) :
    (applyChannelBalances ch sc).stable_receiver_btc
      + (applyChannelBalances ch sc).stable_provider_btc
      = ourBalanceSats ch + theirBalanceSats ch := by
  simp only [applyChannelBalances, Bitcoin.from_sats]
  cases h : sc.is_stable_receiver <;> simp [h] <;> omega

theorem applyChannelBalances_channel_id (ch : ChannelDetails) (sc : StableChannel) :
    (applyChannelBalances ch sc).channel_id = sc.channel_id := by
  simp only [applyChannelBalances, Bitcoin.from_sats]
  cases h : sc.is_stable_receiver <;> simp [h]

set_option linter.unnecessarySeqFocus false in
theorem check_stability_action (f : Except Unit Rat) (c : List ChannelDetails)
    (s : Except Unit Nat) (sc0 : StableChannel) :
    (check_stability f c s sc0).action = stabilityAction (reconcileRecord f c sc0) := by
  cases h : stabilityAction (reconcileRecord f c sc0) <;>
    (unfold check_stability; dsimp only; rw [h]) <;> (try cases s) <;> rfl

set_option linter.unnecessarySeqFocus false in
theorem check_stability_sent (f : Except Unit Rat) (c : List ChannelDetails)
    (s : Except Unit Nat) (sc0 : StableChannel) :
    (check_stability f c s sc0).sentAmount =
      if stabilityAction (reconcileRecord f c sc0) = .Pay
      then some (payAmountMsats (reconcileRecord f c sc0)) else none := by
  cases h : stabilityAction (reconcileRecord f c sc0) <;>
    (unfold check_stability; dsimp only; rw [h]) <;> (try cases s) <;> simp

set_option linter.unnecessarySeqFocus false in
theorem check_stability_record_ok (f : Except Unit Rat) (c : List ChannelDetails)
    (pid : Nat) (sc0 : StableChannel) :
    (check_stability f c (.ok pid) sc0).record =
      if stabilityAction (reconcileRecord f c sc0) = .Pay
      then { reconcileRecord f c sc0 with payment_made := true }
      else reconcileRecord f c sc0 := by
  cases h : stabilityAction (reconcileRecord f c sc0) <;>
    (unfold check_stability; dsimp only; rw [h]) <;> simp

set_option linter.unnecessarySeqFocus false in
theorem check_stability_record_err (f : Except Unit Rat) (c : List ChannelDetails)
    (e : Unit) (sc0 : StableChannel) :
    (check_stability f c (.error e) sc0).record = reconcileRecord f c sc0 := by
  cases h : stabilityAction (reconcileRecord f c sc0) <;>
    (unfold check_stability; dsimp only; rw [h]) <;> simp

/-! ### Claims -/

/-- C1: for every successful balance-reconciliation pass (update_balances
finds a channel matching the record, under the runtime invariant that
our side, outbound_capacity_msat / 1000 plus the unspendable punishment
reserve, does not exceed the u64 capacity), the resulting record
satisfies receiver sats plus provider sats equals the matched channel
capacity exactly. -/
theorem C1_conservation (feed : Except Unit Rat) (channels : List ChannelDetails)
    (sc : StableChannel) (hwf : ∀ ch ∈ channels, ChannelWF ch)
    (hs : (update_balances feed channels sc).1 = true) :
    ∃ ch ∈ channels,
      ch.channel_id = (update_balances feed channels sc).2.channel_id ∧
      (update_balances feed channels sc).2.stable_receiver_btc
        + (update_balances feed channels sc).2.stable_provider_btc
        = ch.channel_value_sats := by
  unfold update_balances at hs ⊢
  dsimp only at hs ⊢
  set sc1 := if sc.latest_price = 0 then
    { sc with latest_price := get_latest_price feed } else sc with hsc1
  by_cases hid : sc1.channel_id = 0
  · rw [if_pos hid] at hs ⊢
    cases hc : channels.head? with
    | none => rw [hc] at hs; simp at hs
    | some ch =>
      rw [hc] at hs
      dsimp only at hs ⊢
      have hmem : ch ∈ channels := by
        cases channels with
        | nil => simp at hc
        | cons a t => simp at hc; simp [hc]
      exact ⟨ch, hmem, by rw [applyChannelBalances_channel_id],
        by rw [applyChannelBalances_sum, sides_sum ch (hwf ch hmem)]⟩
  · rw [if_neg hid] at hs ⊢
    cases hf : channels.find? (fun c => c.channel_id == sc1.channel_id) with
    | none => rw [hf] at hs; simp at hs
    | some ch =>
      rw [hf] at hs
      dsimp only at hs ⊢
      have hmem : ch ∈ channels := List.mem_of_find?_eq_some hf
      have hcid : ch.channel_id = sc1.channel_id := by
        have := List.find?_some hf
        simpa using this
      exact ⟨ch, hmem, by rw [applyChannelBalances_channel_id]; exact hcid,
        by rw [applyChannelBalances_sum, sides_sum ch (hwf ch hmem)]⟩

/-- Concrete channel snapshot used by several witnesses: capacity 1000
sats, outbound 600000 msat, reserve 50 sats, ready. -/
def chW : ChannelDetails :=
  { channel_id := 7, counterparty_node_id := 9, channel_value_sats := 1000,
    outbound_capacity_msat := 600000, unspendable_punishment_reserve := some 50,
    is_channel_ready := true }

/-- Concrete record used by several witnesses: bound to channel 7,
stable receiver, rate 84000. -/
def scW : StableChannel :=
  { channel_id := 7, counterparty := 9, is_stable_receiver := true,
    expected_usd := 1/2, expected_btc := 0,
    stable_receiver_btc := 0, stable_receiver_usd := 0,
    stable_provider_btc := 0, stable_provider_usd := 0,
    latest_price := 84000, risk_level := 0, payment_made := false,
    timestamp := 0, formatted_datetime := "", sc_dir := "", prices := "" }

/-- C1 witness: the conservation theorem evaluated at the concrete
channel chW (650 + 350 = 1000 sats). -/
theorem C1_conservation_witness :
    ∃ ch ∈ [chW],
      ch.channel_id = (update_balances (.ok 84000) [chW] scW).2.channel_id ∧
      (update_balances (.ok 84000) [chW] scW).2.stable_receiver_btc
        + (update_balances (.ok 84000) [chW] scW).2.stable_provider_btc
        = ch.channel_value_sats :=
  C1_conservation (.ok 84000) [chW] scW
    (by
      intro ch hch
      rw [List.mem_singleton] at hch
      subst hch
      exact ⟨by norm_num [rawOurSats, chW], by norm_num [U64SIZE, chW]⟩)
    (by simp [update_balances, scW, chW])


theorem applyChannelBalances_risk (ch : ChannelDetails) (sc : StableChannel) :
    (applyChannelBalances ch sc).risk_level = sc.risk_level := by
  cases h : sc.is_stable_receiver <;> simp [applyChannelBalances, h]

theorem applyChannelBalances_payment_made (ch : ChannelDetails) (sc : StableChannel) :
    (applyChannelBalances ch sc).payment_made = sc.payment_made := by
  cases h : sc.is_stable_receiver <;> simp [applyChannelBalances, h]

theorem applyChannelBalances_latest_price (ch : ChannelDetails) (sc : StableChannel) :
    (applyChannelBalances ch sc).latest_price = sc.latest_price := by
  cases h : sc.is_stable_receiver <;> simp [applyChannelBalances, h]

theorem applyChannelBalances_receiver_flag (ch : ChannelDetails) (sc : StableChannel) :
    (applyChannelBalances ch sc).is_stable_receiver = sc.is_stable_receiver := by
  cases h : sc.is_stable_receiver <;> simp [applyChannelBalances, h]

theorem update_balances_risk (f : Except Unit Rat) (c : List ChannelDetails)
    (sc : StableChannel) :
    (update_balances f c sc).2.risk_level = sc.risk_level := by
  unfold update_balances
  dsimp only
  set sc1 := if sc.latest_price = 0 then
    { sc with latest_price := get_latest_price f } else sc with hsc1
  have hb : sc1.risk_level = sc.risk_level := by rw [hsc1]; split <;> rfl
  by_cases hid : sc1.channel_id = 0
  · rw [if_pos hid]
    cases hc : c.head? with
    | none => simpa using hb
    | some ch => simpa [applyChannelBalances_risk] using hb
  · rw [if_neg hid]
    cases hf : c.find? (fun x => x.channel_id == sc1.channel_id) with
    | none => simpa using hb
    | some ch => simpa [applyChannelBalances_risk] using hb

theorem update_balances_payment_made (f : Except Unit Rat) (c : List ChannelDetails)
    (sc : StableChannel) :
    (update_balances f c sc).2.payment_made = sc.payment_made := by
  unfold update_balances
  dsimp only
  set sc1 := if sc.latest_price = 0 then
    { sc with latest_price := get_latest_price f } else sc with hsc1
  have hb : sc1.payment_made = sc.payment_made := by rw [hsc1]; split <;> rfl
  by_cases hid : sc1.channel_id = 0
  · rw [if_pos hid]
    cases hc : c.head? with
    | none => simpa using hb
    | some ch => simpa [applyChannelBalances_payment_made] using hb
  · rw [if_neg hid]
    cases hf : c.find? (fun x => x.channel_id == sc1.channel_id) with
    | none => simpa using hb
    | some ch => simpa [applyChannelBalances_payment_made] using hb

theorem reconcileRecord_risk (f : Except Unit Rat) (c : List ChannelDetails)
    (sc : StableChannel) :
    (reconcileRecord f c sc).risk_level = sc.risk_level := by
  unfold reconcileRecord
  dsimp only
  split
  · exact update_balances_risk f c sc
  · rfl

theorem reconcileRecord_nil (f : Except Unit Rat) (sc : StableChannel)
    (h1 : sc.channel_id ≠ 0) (h2 : sc.latest_price ≠ 0) :
    reconcileRecord f [] sc = sc := by
  simp [reconcileRecord, update_balances, h1, h2]

theorem C10_price_fallback :
    (∀ q : Rat, get_latest_price (.ok q) = q) ∧
    (∀ e : Unit, get_latest_price (.error e) = 84000) :=
  ⟨fun _ => rfl, fun _ => rfl⟩

def scC2 : StableChannel :=
  { scW with risk_level := 150, expected_usd := 10, stable_receiver_usd := 10 }

theorem C2_counterexample :
    100 < scC2.risk_level ∧
    (check_stability (.ok 84000) [] (.ok 1) scC2).action = .DoNothing := by
  refine ⟨by norm_num [scC2, scW], ?_⟩
  rw [check_stability_action,
    reconcileRecord_nil _ _ (by norm_num [scC2, scW]) (by norm_num [scC2, scW])]
  norm_num [stabilityAction, percentFromPar, scC2, scW]

theorem C2_risk_gate (feed : Except Unit Rat) (channels : List ChannelDetails)
    (s : Except Unit Nat) (sc : StableChannel)
    (hrisk : 100 < sc.risk_level) :
    (1 / 10 ≤ percentFromPar (reconcileRecord feed channels sc) →
      (check_stability feed channels s sc).action = .HighRisk) ∧
    (check_stability feed channels s sc).action ≠ .Pay := by
  rw [check_stability_action]
  have hr : 100 < (reconcileRecord feed channels sc).risk_level := by
    rw [reconcileRecord_risk]; exact hrisk
  have hact : stabilityAction (reconcileRecord feed channels sc) = .DoNothing ∨
      stabilityAction (reconcileRecord feed channels sc) = .HighRisk := by
    unfold stabilityAction
    by_cases hdead : percentFromPar (reconcileRecord feed channels sc) < 1 / 10
    · rw [if_pos hdead]; exact Or.inl rfl
    · rw [if_neg hdead]
      dsimp only
      rw [if_pos hr]
      exact Or.inr rfl
  constructor
  · intro hdev
    unfold stabilityAction
    rw [if_neg (not_lt.mpr hdev)]
    dsimp only
    rw [if_pos hr]
  · rcases hact with h | h <;> rw [h] <;> simp

def scC2w : StableChannel :=
  { scW with risk_level := 150, expected_usd := 10, stable_receiver_usd := 20 }

theorem C2_risk_gate_witness :
    (1 / 10 ≤ percentFromPar (reconcileRecord (.ok 84000) [] scC2w) →
      (check_stability (.ok 84000) [] (.ok 1) scC2w).action = .HighRisk) ∧
    (check_stability (.ok 84000) [] (.ok 1) scC2w).action ≠ .Pay :=
  C2_risk_gate (.ok 84000) [] (.ok 1) scC2w (by norm_num [scC2w, scW])

theorem set_price_eta (y : StableChannel) (v : Rat) (h : y.latest_price = v) :
    { y with latest_price := v } = y := by cases y; cases h; rfl

theorem set_channel_id_eta (y : StableChannel) (v : Nat) (h : y.channel_id = v) :
    { y with channel_id := v } = y := by cases y; cases h; rfl

theorem applyChannelBalances_idem (ch : ChannelDetails) (sc : StableChannel) :
    applyChannelBalances ch (applyChannelBalances ch sc) = applyChannelBalances ch sc := by
  cases h : sc.is_stable_receiver <;>
    simp [applyChannelBalances, h]



theorem update_balances_fixpoint (f : Except Unit Rat) (c : List ChannelDetails)
    (sc : StableChannel) (h1 : (update_balances f c sc).1 = true) :
    update_balances f c (update_balances f c sc).2 = (true, (update_balances f c sc).2) := by
  unfold update_balances at h1 ⊢
  dsimp only at h1 ⊢
  set gp := get_latest_price f with hgp
  set sc1 := if sc.latest_price = 0 then { sc with latest_price := gp } else sc with hsc1
  have hgp0 : sc1.latest_price = 0 → gp = 0 := by
    intro hz
    rw [hsc1] at hz
    by_cases hp : sc.latest_price = 0
    · rw [if_pos hp] at hz; exact hz
    · rw [if_neg hp] at hz; exact absurd hz hp
  by_cases hid : sc1.channel_id = 0
  · rw [if_pos hid] at h1 ⊢
    cases hc : c.head? with
    | none => (try rw [hc] at h1); simp at h1
    | some ch =>
      (try rw [hc] at h1); (try rw [hc])
      (try dsimp only)
      -- the first-pass result record
      set U2 := applyChannelBalances ch { sc1 with channel_id := ch.channel_id } with hU2
      have hUprice : U2.latest_price = sc1.latest_price := by
        rw [hU2, applyChannelBalances_latest_price]
      have hUid : U2.channel_id = ch.channel_id := by
        rw [hU2, applyChannelBalances_channel_id]
      -- the second-pass price step is the identity
      have hps : (if U2.latest_price = 0 then { U2 with latest_price := gp } else U2) = U2 := by
        by_cases hz : U2.latest_price = 0
        · rw [if_pos hz, set_price_eta]
          rw [hz]
          exact (hgp0 (hUprice ▸ hz)).symm
        · rw [if_neg hz]
      rw [hps]
      have hidem : applyChannelBalances ch U2 = U2 := by
        rw [hU2]; exact applyChannelBalances_idem ch _
      by_cases hch0 : ch.channel_id = 0
      · rw [if_pos (hUid.trans hch0)]
        (try rw [hc])
        (try dsimp only)
        rw [set_channel_id_eta U2 ch.channel_id hUid, hidem]
      · rw [if_neg (fun hx => hch0 (hUid ▸ hx))]
        have hfind : c.find? (fun x => x.channel_id == U2.channel_id) = some ch := by
          cases c with
          | nil => simp at hc
          | cons a t =>
            have ha : a = ch := by simpa using hc
            subst ha
            rw [List.find?_cons_of_pos]
            simp [hUid]
        rw [hfind]
        (try dsimp only)
        rw [hidem]
  · rw [if_neg hid] at h1 ⊢
    cases hf : c.find? (fun x => x.channel_id == sc1.channel_id) with
    | none => (try rw [hf] at h1); simp at h1
    | some ch =>
      (try rw [hf] at h1); (try rw [hf])
      (try dsimp only)
      set U2 := applyChannelBalances ch sc1 with hU2
      have hUprice : U2.latest_price = sc1.latest_price := by
        rw [hU2, applyChannelBalances_latest_price]
      have hUid : U2.channel_id = sc1.channel_id := by
        rw [hU2, applyChannelBalances_channel_id]
      have hps : (if U2.latest_price = 0 then { U2 with latest_price := gp } else U2) = U2 := by
        by_cases hz : U2.latest_price = 0
        · rw [if_pos hz, set_price_eta]
          rw [hz]
          exact (hgp0 (hUprice ▸ hz)).symm
        · rw [if_neg hz]
      rw [hps]
      have hidem : applyChannelBalances ch U2 = U2 := by
        rw [hU2]; exact applyChannelBalances_idem ch _
      rw [if_neg (fun hx => hid (hUid ▸ hx))]
      have hfind : c.find? (fun x => x.channel_id == U2.channel_id) = some ch := by
        rw [hUid]; exact hf
      rw [hfind]
      (try dsimp only)
      rw [hidem]

theorem reconcileRecord_idem (f : Except Unit Rat) (c : List ChannelDetails)
    (sc : StableChannel) :
    reconcileRecord f c (reconcileRecord f c sc) = reconcileRecord f c sc := by
  unfold reconcileRecord
  dsimp only
  by_cases h1 : (update_balances f c sc).1 = true
  · simp only [h1, if_true]
    rw [update_balances_fixpoint f c sc h1]
    simp
  · have h1f : (update_balances f c sc).1 = false := by simpa using h1
    simp [h1f]

/-- C4: dead-band idempotence: when the reconciled record's deviation
percentage is below 0.1 the pass decides DoNothing (Stable) and sends
no payment, and a second consecutive pass on the resulting record with
unchanged inputs decides DoNothing again. -/
theorem C4_dead_band (feed : Except Unit Rat) (channels : List ChannelDetails)
    (s s2 : Except Unit Nat) (sc : StableChannel)
    (h : percentFromPar (reconcileRecord feed channels sc) < 1 / 10) :
    (check_stability feed channels s sc).action = .DoNothing ∧
    (check_stability feed channels s sc).sentAmount = none ∧
    (check_stability feed channels s2 ((check_stability feed channels s sc).record)).action
      = .DoNothing := by
  have ha : stabilityAction (reconcileRecord feed channels sc) = .DoNothing := by
    unfold stabilityAction; rw [if_pos h]
  have h1 : (check_stability feed channels s sc).action = .DoNothing := by
    rw [check_stability_action, ha]
  have hsent : (check_stability feed channels s sc).sentAmount = none := by
    rw [check_stability_sent, ha]; simp
  have hrec : (check_stability feed channels s sc).record
      = reconcileRecord feed channels sc := by
    cases s with
    | ok pid => rw [check_stability_record_ok, ha]; simp
    | error e => rw [check_stability_record_err]
  refine ⟨h1, hsent, ?_⟩
  rw [check_stability_action, hrec, reconcileRecord_idem, ha]

/-- Record pegged exactly at the fiat value of chW's our-side. -/
def scW4 : StableChannel := { scW with expected_usd := 273/500 }

/-- C4 witness: channel chW at rate 84000 gives the receiver 0.546
USD; with peg 0.546 the deviation is 0 and both passes are stable. -/
theorem C4_dead_band_witness :
    (check_stability (.ok 84000) [chW] (.ok 1) scW4).action = .DoNothing ∧
    (check_stability (.ok 84000) [chW] (.ok 1) scW4).sentAmount = none ∧
    (check_stability (.ok 84000) [chW] (.ok 2)
        ((check_stability (.ok 84000) [chW] (.ok 1) scW4).record)).action = .DoNothing :=
  C4_dead_band (.ok 84000) [chW] (.ok 1) (.ok 2) scW4
    (by
      norm_num [reconcileRecord, update_balances, applyChannelBalances, get_latest_price,
        Bitcoin.from_sats, USD.from_bitcoin, ourBalanceSats, theirBalanceSats, rawOurSats,
        U64SIZE, percentFromPar, scW4, scW, chW, List.find?, abs_of_nonneg, abs_of_nonpos])

/-- The modelled conversion yields a positive msat amount as soon as
the fiat deviation is at least the fiat value of one satoshi. -/
theorem to_msats_pos (d rate : Rat) (hr : 0 < rate) (hd : 0 ≤ d)
    (h : rate ≤ d * 100000000) :
    0 < USD.to_msats d rate := by
  unfold USD.to_msats USD.to_native_subunit
  rw [abs_of_nonneg hd]
  have h1 : (1 : Rat) ≤ d / rate * 100000000 := by
    rw [div_mul_eq_mul_div, le_div_iff hr]
    linarith
  have h2 : (1 : Int) ≤ ⌊d / rate * 100000000⌋ := by
    rw [Int.le_floor]
    exact_mod_cast h1
  omega

/-- C3 (amended): for a reconciled record with role StableReceiver,
risk_level at most 100 and deviation at least 0.1 percent: below par
the decision is Wait with no payment; above par the decision is Pay
with the deviation converted to msats at the latest rate, and that
amount is positive whenever the deviation is at least the fiat value
of one satoshi (rate / 100000000); it can be zero for smaller
deviations, refuting the unconditional amount > 0 of the claim. -/
theorem C3_directionality (feed : Except Unit Rat) (channels : List ChannelDetails)
    (s : Except Unit Nat) (sc : StableChannel)
    (hrole : (reconcileRecord feed channels sc).is_stable_receiver = true)
    (hrisk : (reconcileRecord feed channels sc).risk_level ≤ 100)
    (hdev : 1 / 10 ≤ percentFromPar (reconcileRecord feed channels sc)) :
    ((reconcileRecord feed channels sc).stable_receiver_usd
        < (reconcileRecord feed channels sc).expected_usd →
      (check_stability feed channels s sc).action = .Wait ∧
      (check_stability feed channels s sc).sentAmount = none) ∧
    ((reconcileRecord feed channels sc).expected_usd
        < (reconcileRecord feed channels sc).stable_receiver_usd →
      (check_stability feed channels s sc).action = .Pay ∧
      (check_stability feed channels s sc).sentAmount
        = some (payAmountMsats (reconcileRecord feed channels sc)) ∧
      (0 < (reconcileRecord feed channels sc).latest_price →
        (reconcileRecord feed channels sc).latest_price
          ≤ ((reconcileRecord feed channels sc).stable_receiver_usd
              - (reconcileRecord feed channels sc).expected_usd) * 100000000 →
        0 < payAmountMsats (reconcileRecord feed channels sc))) := by
  set rc := reconcileRecord feed channels sc with hrc
  constructor
  · intro hbelow
    have ha : stabilityAction rc = .Wait := by
      unfold stabilityAction
      rw [if_neg (not_lt.mpr hdev)]
      dsimp only
      rw [if_neg (by omega : ¬ 100 < rc.risk_level)]
      rw [hrole, decide_eq_true hbelow]
    constructor
    · rw [check_stability_action, ← hrc, ha]
    · rw [check_stability_sent, ← hrc, ha]; simp
  · intro habove
    have ha : stabilityAction rc = .Pay := by
      unfold stabilityAction
      rw [if_neg (not_lt.mpr hdev)]
      dsimp only
      rw [if_neg (by omega : ¬ 100 < rc.risk_level)]
      rw [hrole, decide_eq_false (not_lt.mpr (le_of_lt habove))]
    refine ⟨?_, ?_, ?_⟩
    · rw [check_stability_action, ← hrc, ha]
    · rw [check_stability_sent, ← hrc, ha]; simp
    · intro hp hbig
      unfold payAmountMsats
      exact to_msats_pos _ _ hp (by linarith) hbig

/-- Stale record used to exercise the directional rule: receiver 20
USD against a 10 USD peg. -/
def scC3w : StableChannel :=
  { scW with expected_usd := 10, stable_receiver_usd := 20 }

/-- C3 witness: the directionality theorem at the concrete record
scC3w (100 percent deviation, rate 84000). -/
theorem C3_directionality_witness :
    ((reconcileRecord (.ok 84000) [] scC3w).stable_receiver_usd
        < (reconcileRecord (.ok 84000) [] scC3w).expected_usd →
      (check_stability (.ok 84000) [] (.ok 1) scC3w).action = .Wait ∧
      (check_stability (.ok 84000) [] (.ok 1) scC3w).sentAmount = none) ∧
    ((reconcileRecord (.ok 84000) [] scC3w).expected_usd
        < (reconcileRecord (.ok 84000) [] scC3w).stable_receiver_usd →
      (check_stability (.ok 84000) [] (.ok 1) scC3w).action = .Pay ∧
      (check_stability (.ok 84000) [] (.ok 1) scC3w).sentAmount
        = some (payAmountMsats (reconcileRecord (.ok 84000) [] scC3w)) ∧
      (0 < (reconcileRecord (.ok 84000) [] scC3w).latest_price →
        (reconcileRecord (.ok 84000) [] scC3w).latest_price
          ≤ ((reconcileRecord (.ok 84000) [] scC3w).stable_receiver_usd
              - (reconcileRecord (.ok 84000) [] scC3w).expected_usd) * 100000000 →
        0 < payAmountMsats (reconcileRecord (.ok 84000) [] scC3w))) :=
  C3_directionality (.ok 84000) [] (.ok 1) scC3w
    (by rw [reconcileRecord_nil _ _ (by norm_num [scC3w, scW]) (by norm_num [scC3w, scW])]
        norm_num [scC3w, scW])
    (by rw [reconcileRecord_nil _ _ (by norm_num [scC3w, scW]) (by norm_num [scC3w, scW])]
        norm_num [scC3w, scW])
    (by rw [reconcileRecord_nil _ _ (by norm_num [scC3w, scW]) (by norm_num [scC3w, scW])]
        norm_num [percentFromPar, scC3w, scW, abs_of_nonneg, abs_of_nonpos])

/-- Record with a 0.21 percent deviation whose fiat value is below one
satoshi at rate 84000: 0.00021 USD converts to 0 sats. -/
def scC3 : StableChannel :=
  { scW with expected_usd := 1/10, stable_receiver_usd := 10021/100000 }

/-- C3 counterexample: at record scC3 the pass decides Pay but the
converted amount is 0 msats, refuting Pay(amount) with amount > 0. -/
theorem C3_counterexample :
    (check_stability (.ok 84000) [] (.ok 1) scC3).action = .Pay ∧
    (check_stability (.ok 84000) [] (.ok 1) scC3).sentAmount = some 0 := by
  have hrc : reconcileRecord (.ok 84000) [] scC3 = scC3 :=
    reconcileRecord_nil _ _ (by norm_num [scC3, scW]) (by norm_num [scC3, scW])
  have ha : stabilityAction scC3 = .Pay := by
    unfold stabilityAction
    rw [if_neg (by norm_num [percentFromPar, scC3, scW, abs_of_nonneg, abs_of_nonpos])]
    dsimp only
    rw [if_neg (by norm_num [scC3, scW])]
    have hb : scC3.is_stable_receiver = true := by norm_num [scC3, scW]
    rw [hb, decide_eq_false (by norm_num [scC3, scW])]
  have hamt : payAmountMsats scC3 = 0 := by
    unfold payAmountMsats USD.to_msats USD.to_native_subunit
    norm_num [scC3, scW, abs_of_nonneg]
  constructor
  · rw [check_stability_action, hrc, ha]
  · rw [check_stability_sent, hrc, ha, hamt]
    simp

theorem any_eq_isSome_find? (l : List ChannelDetails) (p : ChannelDetails → Bool) :
    l.any p = (l.find? p).isSome := by
  induction l with
  | nil => rfl
  | cons a t ih =>
    by_cases h : p a
    · simp [h, List.find?_cons_of_pos _ h]
    · simp [h, List.find?_cons_of_neg _ h, ih]

theorem update_balances_latest_price (f : Except Unit Rat) (c : List ChannelDetails)
    (sc : StableChannel) :
    (update_balances f c sc).2.latest_price
      = (if sc.latest_price = 0 then get_latest_price f else sc.latest_price) := by
  unfold update_balances
  dsimp only
  set sc1 := if sc.latest_price = 0 then
    { sc with latest_price := get_latest_price f } else sc with hsc1
  have hb : sc1.latest_price
      = (if sc.latest_price = 0 then get_latest_price f else sc.latest_price) := by
    rw [hsc1]; split <;> rfl
  by_cases hid : sc1.channel_id = 0
  · rw [if_pos hid]
    cases hc : c.head? with
    | none => simpa using hb
    | some ch => simpa [applyChannelBalances_latest_price] using hb
  · rw [if_neg hid]
    cases hf : c.find? (fun x => x.channel_id == sc1.channel_id) with
    | none => simpa using hb
    | some ch => simpa [applyChannelBalances_latest_price] using hb

/-- C5 (amended): when the record's rate is 0, update_balances fetches
a price and on feed failure substitutes the constant 84000 rather than
failing; the pass then proceeds, succeeding exactly when a channel
matching the stored id exists.  No RateUnavailable failure exists. -/
theorem C5_rate_fallback (channels : List ChannelDetails) (sc : StableChannel)
    (h : sc.latest_price = 0) :
    (update_balances (.error ()) channels sc).2.latest_price = 84000 ∧
    (sc.channel_id ≠ 0 →
      (update_balances (.error ()) channels sc).1
        = channel_exists channels sc.channel_id) := by
  constructor
  · rw [update_balances_latest_price, if_pos h]; rfl
  · intro hid
    unfold update_balances channel_exists
    dsimp only
    rw [if_pos h]
    dsimp only
    rw [if_neg hid]
    rw [any_eq_isSome_find?]
    cases hf : channels.find? (fun c => c.channel_id == sc.channel_id) with
    | none => rfl
    | some ch => rfl

/-- Record with rate 0 and a stale receiver balance of 1 sat, bound to
channel 7. -/
def sc5 : StableChannel := { scW with latest_price := 0, stable_receiver_btc := 1 }

/-- C5 counterexample: with rate 0 and a failing feed, reconciliation
does not fail: it succeeds with the fallback rate 84000 and overwrites
the prior receiver balance, refuting RateUnavailable-and-no-change. -/
theorem C5_counterexample :
    sc5.latest_price = 0 ∧
    (update_balances (.error ()) [chW] sc5).1 = true ∧
    (update_balances (.error ()) [chW] sc5).2.latest_price = 84000 ∧
    (update_balances (.error ()) [chW] sc5).2.stable_receiver_btc
      ≠ sc5.stable_receiver_btc := by
  refine ⟨rfl, ?_, ?_, ?_⟩ <;>
    norm_num [update_balances, applyChannelBalances, get_latest_price, Bitcoin.from_sats,
      USD.from_bitcoin, ourBalanceSats, theirBalanceSats, rawOurSats, U64SIZE,
      sc5, scW, chW, List.find?]

/-- C5 witness: the amended theorem evaluated at record sc5 and the
concrete channel chW. -/
theorem C5_rate_fallback_witness :
    (update_balances (.error ()) [chW] sc5).2.latest_price = 84000 ∧
    (sc5.channel_id ≠ 0 →
      (update_balances (.error ()) [chW] sc5).1 = channel_exists [chW] sc5.channel_id) :=
  C5_rate_fallback [chW] sc5 rfl

/-- C6: execute_payment succeeds exactly when the amount is nonzero,
a channel matching the record id exists, it is ready, its outbound
capacity covers the amount, the snapshot counterparty equals the
record counterparty, and the runtime send succeeds; each violated
precondition yields its distinct error in check order, a zero amount
is rejected before the send primitive is invoked, and the
insufficient-capacity error carries both values. -/
theorem C6_executor_preconditions (channels : List ChannelDetails) (amount : Nat)
    (sc : StableChannel) (send : Except Unit Nat) :
    (∀ pid : Nat, (execute_payment channels amount sc send).result = .ok pid ↔
      (amount ≠ 0 ∧ ∃ ch, channels.find? (fun c => c.channel_id == sc.channel_id) = some ch ∧
        ch.is_channel_ready = true ∧ amount ≤ ch.outbound_capacity_msat ∧
        ch.counterparty_node_id = sc.counterparty ∧ send = .ok pid)) ∧
    (amount = 0 → (execute_payment channels amount sc send).result = .error .zeroAmount ∧
      (execute_payment channels amount sc send).sendCalled = false) ∧
    (amount ≠ 0 → channels.find? (fun c => c.channel_id == sc.channel_id) = none →
      (execute_payment channels amount sc send).result = .error .channelNotFound ∧
      (execute_payment channels amount sc send).sendCalled = false) ∧
    (∀ ch, amount ≠ 0 → channels.find? (fun c => c.channel_id == sc.channel_id) = some ch →
      ch.is_channel_ready = false →
      (execute_payment channels amount sc send).result = .error .channelNotReady ∧
      (execute_payment channels amount sc send).sendCalled = false) ∧
    (∀ ch, amount ≠ 0 → channels.find? (fun c => c.channel_id == sc.channel_id) = some ch →
      ch.is_channel_ready = true → ch.outbound_capacity_msat < amount →
      (execute_payment channels amount sc send).result
        = .error (.insufficientCapacity ch.outbound_capacity_msat amount) ∧
      (execute_payment channels amount sc send).sendCalled = false) ∧
    (∀ ch, amount ≠ 0 → channels.find? (fun c => c.channel_id == sc.channel_id) = some ch →
      ch.is_channel_ready = true → amount ≤ ch.outbound_capacity_msat →
      ch.counterparty_node_id ≠ sc.counterparty →
      (execute_payment channels amount sc send).result = .error .counterpartyMismatch ∧
      (execute_payment channels amount sc send).sendCalled = false) := by
  unfold execute_payment
  by_cases h0 : amount = 0
  · simp [h0]
  · rw [if_neg h0]
    cases hf : channels.find? (fun c => c.channel_id == sc.channel_id) with
    | none => simp [h0, hf]
    | some ch =>
      dsimp only
      by_cases hr : ch.is_channel_ready = false
      · simp [h0, hf, hr]
      · have hr' : ch.is_channel_ready = true := by
          cases hh : ch.is_channel_ready
          · exact absurd hh hr
          · rfl
        rw [if_neg (by rw [hr']; exact fun hx => Bool.noConfusion hx)]
        by_cases hcap : ch.outbound_capacity_msat < amount
        · rw [if_pos hcap]
          simp [h0, hf, hr', hcap]
        · rw [if_neg hcap]
          by_cases hcp : ch.counterparty_node_id ≠ sc.counterparty
          · rw [if_pos hcp]
            simp [h0, hf, hr', hcp]
            omega
          · rw [if_neg hcp]
            push_neg at hcp
            cases send with
            | ok pid => simp [h0, hf, hr', hcp]; omega
            | error e => simp [h0, hf, hr', hcp]; omega




/-- C6 witness: the executor theorem at channel chW: a 5000 msat
payment passes every guard, a zero amount is rejected without calling
send. -/
theorem C6_executor_preconditions_witness :
    ((execute_payment [chW] 5000 scW (.ok 3)).result = .ok 3) ∧
    ((execute_payment [chW] 0 scW (.ok 3)).result = .error .zeroAmount ∧
      (execute_payment [chW] 0 scW (.ok 3)).sendCalled = false) :=
  ⟨((C6_executor_preconditions [chW] 5000 scW (.ok 3)).1 3).mpr
      ⟨by norm_num, chW, by simp [List.find?, chW, scW], by norm_num [chW],
       by norm_num [chW], by norm_num [chW, scW], rfl⟩,
   (C6_executor_preconditions [chW] 0 scW (.ok 3)).2.1 rfl⟩

/-- Stale record with a 0.22 percent deviation whose fiat value is
below one satoshi at rate 84000. -/
def scC7 : StableChannel :=
  { scW with expected_usd := 1/10, stable_receiver_usd := 10022/100000 }

/-- C7 counterexample: the pass decides Pay and invokes the runtime
send directly with amount 0 msat, an amount the Payment Executor's own
zero-amount precondition rejects without calling send; so Pay payments
do not go through execute_payment's guards. -/
theorem C7_counterexample :
    (check_stability (.ok 84000) [] (.ok 5) scC7).action = .Pay ∧
    (check_stability (.ok 84000) [] (.ok 5) scC7).sentAmount = some 0 ∧
    (execute_payment [] 0 scC7 (.ok 5)).result = .error .zeroAmount ∧
    (execute_payment [] 0 scC7 (.ok 5)).sendCalled = false := by
  have hrc : reconcileRecord (.ok 84000) [] scC7 = scC7 :=
    reconcileRecord_nil _ _ (by norm_num [scC7, scW]) (by norm_num [scC7, scW])
  have ha : stabilityAction scC7 = .Pay := by
    unfold stabilityAction
    rw [if_neg (by norm_num [percentFromPar, scC7, scW, abs_of_nonneg, abs_of_nonpos])]
    dsimp only
    rw [if_neg (by norm_num [scC7, scW])]
    have hb : scC7.is_stable_receiver = true := by norm_num [scC7, scW]
    rw [hb, decide_eq_false (by norm_num [scC7, scW])]
  have hamt : payAmountMsats scC7 = 0 := by
    unfold payAmountMsats USD.to_msats USD.to_native_subunit
    norm_num [scC7, scW, abs_of_nonneg]
  refine ⟨?_, ?_, ?_, ?_⟩
  · rw [check_stability_action, hrc, ha]
  · rw [check_stability_sent, hrc, ha, hamt]; simp
  · simp [execute_payment]
  · simp [execute_payment]

/-- C7 (amended): whenever the pass decides Pay, check_stability hands
the converted deviation directly to the runtime spontaneous-payment
send; execute_payment and its preconditions are not involved. -/
theorem C7_direct_send (feed : Except Unit Rat) (channels : List ChannelDetails)
    (s : Except Unit Nat) (sc : StableChannel)
    (h : (check_stability feed channels s sc).action = .Pay) :
    (check_stability feed channels s sc).sentAmount
      = some (payAmountMsats (reconcileRecord feed channels sc)) := by
  rw [check_stability_action] at h
  rw [check_stability_sent, if_pos h]

/-- C7 witness: the direct-send theorem at the concrete record scC7
(where the pass decides Pay). -/
theorem C7_direct_send_witness :
    (check_stability (.ok 84000) [] (.ok 5) scC7).sentAmount
      = some (payAmountMsats (reconcileRecord (.ok 84000) [] scC7)) :=
  C7_direct_send (.ok 84000) [] (.ok 5) scC7 (by
    rw [check_stability_action,
      reconcileRecord_nil _ _ (by norm_num [scC7, scW]) (by norm_num [scC7, scW])]
    unfold stabilityAction
    rw [if_neg (by norm_num [percentFromPar, scC7, scW, abs_of_nonneg, abs_of_nonpos])]
    dsimp only
    rw [if_neg (by norm_num [scC7, scW])]
    have hb : scC7.is_stable_receiver = true := by norm_num [scC7, scW]
    rw [hb, decide_eq_false (by norm_num [scC7, scW])])

/-- Stale record far above par (receiver 20 USD, peg 10 USD) bound to
channel 7 with no live channel present. -/
def scC8 : StableChannel :=
  { scW with expected_usd := 10, stable_receiver_usd := 20 }

/-- C8 counterexample: with an empty channel list the reconciliation
of the pass fails, yet the pass still decides Pay on the stale record
and sends 11904000 msat: a payment issued against balances older than
the pass's own reconciliation. -/
theorem C8_counterexample :
    (update_balances (.ok 84000) [] scC8).1 = false ∧
    (check_stability (.ok 84000) [] (.ok 3) scC8).action = .Pay ∧
    (check_stability (.ok 84000) [] (.ok 3) scC8).sentAmount = some 11904000 := by
  have hrc : reconcileRecord (.ok 84000) [] scC8 = scC8 :=
    reconcileRecord_nil _ _ (by norm_num [scC8, scW]) (by norm_num [scC8, scW])
  have ha : stabilityAction scC8 = .Pay := by
    unfold stabilityAction
    rw [if_neg (by norm_num [percentFromPar, scC8, scW, abs_of_nonneg, abs_of_nonpos])]
    dsimp only
    rw [if_neg (by norm_num [scC8, scW])]
    have hb : scC8.is_stable_receiver = true := by norm_num [scC8, scW]
    rw [hb, decide_eq_false (by norm_num [scC8, scW])]
  have hamt : payAmountMsats scC8 = 11904000 := by
    unfold payAmountMsats USD.to_msats USD.to_native_subunit
    norm_num [scC8, scW, abs_of_nonneg, Int.floor_eq_iff]
    decide
  refine ⟨?_, ?_, ?_⟩
  · norm_num [update_balances, scC8, scW]
  · rw [check_stability_action, hrc, ha]
  · rw [check_stability_sent, hrc, ha, hamt]; simp

/-- C8 (amended): within one pass the decision is computed on the
record produced by the pass's own reconciliation attempt and a Pay
sends exactly the amount derived from that record, but when the
reconciliation fails the pass proceeds on the prior (stale) record
rather than refusing to pay. -/
theorem C8_pass_ordering (feed : Except Unit Rat) (channels : List ChannelDetails)
    (s : Except Unit Nat) (sc : StableChannel) :
    (check_stability feed channels s sc).action
      = stabilityAction (reconcileRecord feed channels sc) ∧
    ((check_stability feed channels s sc).action = .Pay →
      (check_stability feed channels s sc).sentAmount
        = some (payAmountMsats (reconcileRecord feed channels sc))) ∧
    ((update_balances feed channels sc).1 = false →
      reconcileRecord feed channels sc = sc) := by
  refine ⟨check_stability_action feed channels s sc, ?_, ?_⟩
  · intro h
    rw [check_stability_action] at h
    rw [check_stability_sent, if_pos h]
  · intro h
    unfold reconcileRecord
    simp [h]

/-- C8 witness: the ordering theorem at the concrete record scC8. -/
theorem C8_pass_ordering_witness :
    (check_stability (.ok 84000) [] (.ok 3) scC8).action
      = stabilityAction (reconcileRecord (.ok 84000) [] scC8) ∧
    ((check_stability (.ok 84000) [] (.ok 3) scC8).action = .Pay →
      (check_stability (.ok 84000) [] (.ok 3) scC8).sentAmount
        = some (payAmountMsats (reconcileRecord (.ok 84000) [] scC8))) ∧
    ((update_balances (.ok 84000) [] scC8).1 = false →
      reconcileRecord (.ok 84000) [] scC8 = scC8) :=
  C8_pass_ordering (.ok 84000) [] (.ok 3) scC8




/-- execute_payment borrows the record immutably: the record after the
call is the input record in every branch. -/
theorem execute_payment_record (channels : List ChannelDetails) (amount : Nat)
    (sc : StableChannel) (send : Except Unit Nat) :
    (execute_payment channels amount sc send).record = sc := by
  unfold execute_payment
  by_cases h0 : amount = 0
  · simp [h0]
  · rw [if_neg h0]
    cases hf : channels.find? (fun c => c.channel_id == sc.channel_id) with
    | none => rfl
    | some ch =>
      dsimp only
      by_cases hr : ch.is_channel_ready = false
      · simp [hr]
      · rw [if_neg hr]
        by_cases hcap : ch.outbound_capacity_msat < amount
        · simp [hcap]
        · rw [if_neg hcap]
          by_cases hcp : ch.counterparty_node_id ≠ sc.counterparty
          · simp [hcp]
          · rw [if_neg hcp]
            cases send <;> rfl

theorem reconcileRecord_payment_made (f : Except Unit Rat) (c : List ChannelDetails)
    (sc : StableChannel) :
    (reconcileRecord f c sc).payment_made = sc.payment_made := by
  unfold reconcileRecord
  dsimp only
  split
  · exact update_balances_payment_made f c sc
  · rfl

/-- C9 (amended): execute_payment never mutates the record (so it
cannot set payment_made); the flag is set by the Pay branch of
check_stability when its direct send succeeds; and the flag is sticky:
update_balances, check_stability and execute_payment never reset a
true payment_made to false. -/
theorem C9_payment_made_sticky (feed : Except Unit Rat) (channels : List ChannelDetails)
    (sc : StableChannel) (amount : Nat) (send : Except Unit Nat) (pid : Nat) :
    ((execute_payment channels amount sc send).record = sc) ∧
    ((check_stability feed channels (.ok pid) sc).action = .Pay →
      (check_stability feed channels (.ok pid) sc).record.payment_made = true) ∧
    (sc.payment_made = true →
      (update_balances feed channels sc).2.payment_made = true ∧
      (check_stability feed channels send sc).record.payment_made = true ∧
      (execute_payment channels amount sc send).record.payment_made = true) := by
  refine ⟨execute_payment_record channels amount sc send, ?_, ?_⟩
  · intro h
    rw [check_stability_action] at h
    rw [check_stability_record_ok, if_pos h]
  · intro hpm
    refine ⟨?_, ?_, ?_⟩
    · rw [update_balances_payment_made]; exact hpm
    · cases send with
      | ok p =>
        rw [check_stability_record_ok]
        by_cases h : stabilityAction (reconcileRecord feed channels sc) = .Pay
        · rw [if_pos h]
        · rw [if_neg h, reconcileRecord_payment_made]; exact hpm
      | error e =>
        rw [check_stability_record_err, reconcileRecord_payment_made]; exact hpm
    · rw [execute_payment_record]; exact hpm

/-- C9 counterexample: a successful execute_payment run (send ok on a
ready channel with capacity and matching counterparty) leaves the
record unchanged with payment_made still false, refuting that the
executor's success sets the flag. -/
theorem C9_counterexample :
    scW.payment_made = false ∧
    (execute_payment [chW] 5000 scW (.ok 3)).result = .ok 3 ∧
    (execute_payment [chW] 5000 scW (.ok 3)).record.payment_made = false := by
  refine ⟨rfl, ?_, ?_⟩
  · simp [execute_payment, List.find?, chW, scW]
  · rw [execute_payment_record]
    rfl

/-- C9 witness: the sticky-flag theorem at channel chW and record
scW. -/
theorem C9_payment_made_sticky_witness :
    ((execute_payment [chW] 5000 scW (.ok 3)).record = scW) ∧
    ((check_stability (.ok 84000) [chW] (.ok 3) scW).action = .Pay →
      (check_stability (.ok 84000) [chW] (.ok 3) scW).record.payment_made = true) ∧
    (scW.payment_made = true →
      (update_balances (.ok 84000) [chW] scW).2.payment_made = true ∧
      (check_stability (.ok 84000) [chW] (.ok 3) scW).record.payment_made = true ∧
      (execute_payment [chW] 5000 scW (.ok 3)).record.payment_made = true) :=
  C9_payment_made_sticky (.ok 84000) [chW] scW 5000 (.ok 3) 3

end StableChannels
